import Mathlib

/-!
Verification of the Otter data-loading layer (`pipeline/train/data.py`).

The Python source is shallowly embedded below.  Pure helper functions become
Lean functions; the filesystem sidecar lookup, the tokenizer, the image
processor and the PyTorch worker info are passed in explicitly as data.
Machine integers are modelled as `Int`/`Nat` (Python integers are unbounded,
so no wrap-around modelling is needed); `math.ceil`/`math.floor` of an exact
division are modelled with exact integer/rational arithmetic; fallible code
returns `Except`.
-/

namespace OtterData

/-! ## Python arithmetic helpers

`pyFloorDiv a b` models `math.floor(a / b)` and `pyCeilDiv a b` models
`math.ceil(a / b)` for integer arguments with `b ≠ 0` (the float rounding of
CPython's true division is ignored; the model is exact).  `Int.fdiv` is
flooring division, matching Python's `//`. -/

def pyFloorDiv (a b : Int) : Int := a.fdiv b

def pyCeilDiv (a b : Int) : Int := -((-a).fdiv b)

/-- `qFloorDivInt q b` models `math.floor(q / b)` for an exact rational `q`
and integer `b ≠ 0`, computed on the numerator/denominator directly. -/
def qFloorDivInt (q : ℚ) (b : Int) : Int := q.num.fdiv ((q.den : Int) * b)

/-- `qCeilDivInt q b` models `math.ceil(q / b)` likewise. -/
def qCeilDivInt (q : ℚ) (b : Int) : Int := -((-q.num).fdiv ((q.den : Int) * b))

/-- Python truthiness of an `int`-or-`None` value: `None` and `0` are falsy. -/
def pyTruthy : Option Int → Bool
  | none => false
  | some v => v != 0

/-! ## Character-level string helpers

Core `String` functions such as `splitOn`, `toLower` and `replace` are
loop-based and do not reduce in the kernel, so the string operations the
embedding needs are implemented structurally on `List Char`.  Case folding
is ASCII (the suffixes and messages involved are ASCII). -/

def lowerChar (c : Char) : Char :=
  if 'A' ≤ c ∧ c ≤ 'Z' then Char.ofNat (c.toNat + 32) else c

/-- Python `str.lower()` (ASCII model). -/
def strLower (s : String) : String := ⟨s.data.map lowerChar⟩

/-- Split a character list at every occurrence of `c` (like
`str.split(c)`, keeping empty segments). -/
def splitOnCharList (c : Char) : List Char → List (List Char)
  | [] => [[]]
  | x :: xs =>
    match splitOnCharList c xs with
    | [] => [[x]]
    | h :: t => if x = c then [] :: h :: t else (x :: h) :: t

def intercalateChar (c : Char) : List (List Char) → List Char
  | [] => []
  | [x] => x
  | x :: y :: rest => x ++ c :: intercalateChar c (y :: rest)

def leadsWith : List Char → List Char → Bool
  | [], _ => true
  | _ :: _, [] => false
  | p :: ps, s :: ss => p = s && leadsWith ps ss

def hasSub (pat : List Char) : List Char → Bool
  | [] => leadsWith pat []
  | x :: xs => leadsWith pat (x :: xs) || hasSub pat xs

/-- Python `pat in s` on strings. -/
def strContains (s pat : String) : Bool := hasSub pat.data s.data

/-! ## Shard locator (`get_dataset_size`, data.py lines 64-83) -/

/-- `os.path.basename`: the part of the path after the last `/`. -/
def pathBasename (s : String) : String :=
  ⟨s.data.foldl (fun acc ch => if ch = '/' then [] else acc ++ [ch]) []⟩

/-- The sidecar metadata visible in the shard pattern's parent directory:
`sizes.json` (a basename → per-shard sample count map) and `__len__`
(a literal integer), each optionally present. -/
structure SidecarFS where
  sizesJson : Option (List (String × Int))
  lenMarker : Option Int
  deriving DecidableEq

/-- Embedding of `get_dataset_size(shards)`.  `shards_list` is the
brace-expanded shard list (brace expansion itself is treated as already
done).  Returns `(total_size, num_shards)` where `total_size` is `None`
when neither sidecar file exists. -/
def get_dataset_size (fs : SidecarFS) (shards_list : List String) : Option Int × Nat :=
  match fs.sizesJson with
  | some sizes =>
    (some ((shards_list.map (fun shard =>
        match sizes.lookup (pathBasename shard) with
        | some v => v
        | none => 0)).sum),
     shards_list.length)
  | none =>
    match fs.lenMarker with
    | some n => (some n, shards_list.length)
    | none => (none, shards_list.length)

/-! ## The webdataset constructors (`get_mmc4_dataset` / `get_laion_dataset` /
`get_cc3m_dataset`, data.py lines 365-636)

The three constructors are textually identical except for the dataset-specific
decode/transform stages and for which `args` fields they read
(`*_shards`, `train_num_samples_*`, `batch_size_*`); `WdsConfig` carries the
fields of the dataset being constructed, and `get_webdataset` is the shared
body, taking the dataset-specific stage list as a parameter. -/

/-- One stage of the `wds.DataPipeline`. -/
inductive Stage
  | resampledShards2
  | simpleShardList
  | detshuffleStage (bufsize initial : Nat) (seed : Int)
  | splitByNode
  | splitByWorker
  | tarfileToSamplesNothrow
  | sampleShuffle (bufsize initial : Nat)
  | selectFilterNoCaptionOrNoImage
  | decodeBase64Png
  | decodePil
  | toTupleJson
  | toTupleImgTxt
  | mapPreprocessInterleaved
  | mapTuplePreprocess
  | batched (batchSize : Int)
  deriving DecidableEq

def _SHARD_SHUFFLE_SIZE : Nat := 2000
def _SHARD_SHUFFLE_INITIAL : Nat := 500
def _SAMPLE_SHUFFLE_SIZE : Nat := 5000
def _SAMPLE_SHUFFLE_INITIAL : Nat := 1000

/-- The `args` fields read by one webdataset constructor.  `input_shards` is
the brace-expanded shard list; `train_num_samples` is the per-dataset
fallback count (`None` models an unset option). -/
structure WdsConfig where
  input_shards : List String
  fs : SidecarFS
  dataset_resampled : Bool
  train_num_samples : Option Int
  seed : Int
  batch_size : Int
  workers : Int
  world_size : Int
  floorFlag : Bool
  deriving DecidableEq

inductive DatasetErr
  | runtimeError (msg : String)
  | assertionError (msg : String)
  deriving DecidableEq

/-- The `RuntimeError` message of data.py lines 375-378. -/
def trainNumSamplesErrMsg : String :=
  "Currently, number of dataset samples must be specified for training dataset. Please specify via `--train-num-samples` if no dataset length info present."

structure WdsResult where
  pipeline : List Stage
  num_batches : Int
  num_samples : Int
  num_worker_batches : Int
  with_epoch : Int
  deriving DecidableEq

/-- Shared body of the three webdataset constructors.  Mirrors the source
line by line: note that the count returned by `get_dataset_size` is
immediately overwritten by `num_samples = None` in the source, so only the
configured fallback is ever consulted. -/
def get_webdataset (c : WdsConfig) (datasetStages : List Stage) : Except DatasetErr WdsResult :=
  let sized := get_dataset_size c.fs c.input_shards
  let num_shards := sized.2
  -- `num_samples = None` : the sidecar-derived count `sized.1` is discarded
  let ns0 : Option Int := none
  -- `if not num_samples: num_samples = args.train_num_samples_*`
  let ns1 : Option Int := if pyTruthy ns0 then ns0 else c.train_num_samples
  -- `if not num_samples: raise RuntimeError(...)`
  if pyTruthy ns1 = false then
    .error (.runtimeError trainNumSamplesErrMsg)
  else
    let num_samples : Int := ns1.getD 0
    let pipeline : List Stage :=
      (if c.dataset_resampled then [Stage.resampledShards2] else [Stage.simpleShardList])
        ++ (if c.dataset_resampled = false then
              [Stage.detshuffleStage _SHARD_SHUFFLE_SIZE _SHARD_SHUFFLE_INITIAL c.seed,
               Stage.splitByNode, Stage.splitByWorker]
            else [])
        ++ [Stage.tarfileToSamplesNothrow,
            Stage.sampleShuffle _SAMPLE_SHUFFLE_SIZE _SAMPLE_SHUFFLE_INITIAL]
        ++ datasetStages
    -- `assert num_shards >= args.workers * args.world_size`
    if c.dataset_resampled = false ∧ (num_shards : Int) < c.workers * c.world_size then
      .error (.assertionError "number of shards must be >= total workers")
    else
      let round_fn := if c.floorFlag then pyFloorDiv else pyCeilDiv
      let global_batch_size := c.batch_size * c.world_size
      let num_batches := round_fn num_samples global_batch_size
      let num_workers := max 1 c.workers
      let num_worker_batches := round_fn num_batches num_workers
      let num_batches := num_worker_batches * num_workers
      let num_samples := num_batches * global_batch_size
      .ok ⟨pipeline, num_batches, num_samples, num_worker_batches, num_worker_batches⟩

/-- `get_mmc4_dataset` (data.py lines 365-454): interleaved-document stages. -/
def get_mmc4_dataset (c : WdsConfig) : Except DatasetErr WdsResult :=
  get_webdataset c
    [Stage.toTupleJson, Stage.mapPreprocessInterleaved, Stage.batched c.batch_size]

/-- `get_laion_dataset` (data.py lines 457-545): image+caption stages. -/
def get_laion_dataset (c : WdsConfig) : Except DatasetErr WdsResult :=
  get_webdataset c
    [Stage.selectFilterNoCaptionOrNoImage, Stage.decodeBase64Png, Stage.toTupleImgTxt,
     Stage.batched c.batch_size, Stage.mapTuplePreprocess]

/-- `get_cc3m_dataset` (data.py lines 548-636): image+caption stages with
PIL decoding. -/
def get_cc3m_dataset (c : WdsConfig) : Except DatasetErr WdsResult :=
  get_webdataset c
    [Stage.selectFilterNoCaptionOrNoImage, Stage.decodePil, Stage.toTupleImgTxt,
     Stage.batched c.batch_size, Stage.mapTuplePreprocess]

/-! ## Deterministic shuffle stage (`detshuffle2`, data.py lines 181-210)

`webdataset.filters._shuffle` (the external collaborator the stage delegates
to) is a bounded-buffer shuffle driven by a seeded `random.Random`; it is
modelled here by `bufferedShuffle` with an explicit deterministic RNG state
(`Rng`, a linear congruential generator standing in for the Mersenne
Twister — the claims about this stage concern seed derivation and
determinism, not the exact permutation). -/

structure Rng where
  state : Nat
  deriving DecidableEq

def rngModulus : Nat := 2147483647

def mkRng (seed : Int) : Rng := ⟨seed.natAbs % rngModulus⟩

def rngNext (r : Rng) : Nat × Rng :=
  let s := (48271 * r.state + 1) % rngModulus
  (s, ⟨s⟩)

/-- `rng.randint(0, n-1)` model: a uniform draw below `n`. -/
def randBelow (r : Rng) (n : Nat) : Nat × Rng :=
  let p := rngNext r
  (p.1 % n, p.2)

/-- `webdataset.filters.pick(buf, rng)`: draw a random index, return that
element, move the last element into its slot and pop. -/
def wdsPick (buf : List α) (r : Rng) : Option α × List α × Rng :=
  match buf with
  | [] => (none, [], r)
  | b :: bs =>
    let p := randBelow r (b :: bs).length
    let lastElem := (b :: bs).getLastD b
    (some ((b :: bs).getD p.1 b), ((b :: bs).set p.1 lastElem).dropLast, p.2)

/-- Drain phase of `_shuffle`: `while len(buf) > 0: yield pick(buf, rng)`.
The fuel is the buffer length, which each `pick` decreases by one. -/
def drainGo : Nat → List α → Rng → List α
  | 0, _, _ => []
  | fuel + 1, buf, r =>
    match wdsPick buf r with
    | (none, _, _) => []
    | (some a, buf', r') => a :: drainGo fuel buf' r'

/-- Main loop of `_shuffle`: append the incoming sample, pull one extra
sample while the buffer is below `bufsize`, and once the buffer has reached
`initial`, yield one picked element per incoming sample.  The fuel is the
length of the remaining input, which each step decreases. -/
def shuffleGo (bufsize initial : Nat) : Nat → List α → List α → Rng → List α
  | _, [], buf, r => drainGo buf.length buf r
  | 0, _ :: _, buf, r => drainGo buf.length buf r
  | fuel + 1, x :: rest, buf, r =>
    let buf := buf ++ [x]
    let pulled : List α × List α :=
      if buf.length < bufsize then
        match rest with
        | y :: rest' => (buf ++ [y], rest')
        | [] => (buf, [])
      else (buf, rest)
    if initial ≤ pulled.1.length then
      match wdsPick pulled.1 r with
      | (some a, buf', r') => a :: shuffleGo bufsize initial fuel pulled.2 buf' r'
      | (none, _, _) => shuffleGo bufsize initial fuel pulled.2 pulled.1 r
    else
      shuffleGo bufsize initial fuel pulled.2 pulled.1 r

/-- `_shuffle(data, bufsize, initial, rng)`; `initial = min(initial, bufsize)`
as in the source. -/
def bufferedShuffle (bufsize initial : Nat) (data : List α) (r : Rng) : List α :=
  shuffleGo bufsize (min initial bufsize) data.length data [] r

/-- The `torch.utils.data.get_worker_info()` facts `pytorch_worker_seed`
reads: the worker's intrinsic seed and the worker count. -/
structure WorkerInfo where
  seed : Int
  num_workers : Int
  deriving DecidableEq

/-- Embedding of `pytorch_worker_seed(increment)` (data.py lines 161-172).
`wdsRankSeed` stands for the `wds.utils.pytorch_worker_seed()` fallback used
outside a dataloader worker. -/
def pytorch_worker_seed (workerInfo : Option WorkerInfo) (wdsRankSeed : Int)
    (increment : Int) : Int :=
  match workerInfo with
  | some w => if increment ≠ 0 then w.seed + increment * max 1 w.num_workers else w.seed
  | none => wdsRankSeed

/-- The `epoch` field of `detshuffle2` / `ResampledShards2` is either a
`SharedEpoch` store (read) or a plain integer counter (incremented). -/
inductive EpochRef
  | sharedEpoch (v : Int)
  | counter (v : Int)
  deriving DecidableEq

/-- Epoch value observed by `detshuffle2.run` (data.py lines 195-201). -/
def epochValue : EpochRef → Int
  | .sharedEpoch v => v
  | .counter v => v + 1

/-- The `detshuffle2` stage state (data.py lines 181-192). -/
structure Detshuffle2 where
  bufsize : Nat
  initial : Nat
  seed : Int
  epoch : EpochRef
  deriving DecidableEq

/-- The RNG seed derived by `detshuffle2.run` (data.py lines 202-209):
`pytorch_worker_seed(epoch)` when the configured seed is negative, else
`self.seed + epoch`. -/
def detshuffle2_used_seed (s : Detshuffle2) (workerInfo : Option WorkerInfo)
    (wdsRankSeed : Int) : Int :=
  let epoch := epochValue s.epoch
  if s.seed < 0 then pytorch_worker_seed workerInfo wdsRankSeed epoch
  else s.seed + epoch

/-- Embedding of `detshuffle2.run(src)` (data.py lines 194-210). -/
def detshuffle2_run (s : Detshuffle2) (workerInfo : Option WorkerInfo)
    (wdsRankSeed : Int) (src : List α) : List α :=
  bufferedShuffle s.bufsize s.initial src (mkRng (detshuffle2_used_seed s workerInfo wdsRankSeed))

/-! ## Error handler (`log_and_continue`, data.py lines 117-122) -/

/-- Embedding of `log_and_continue(exn)`; the result is
`(continue?, logged?)`: the handler always returns `True` (continue), and
skips the `logging.warning` call for the two image-count rejection
messages. -/
def log_and_continue (exnMsg : String) : Bool × Bool :=
  if strContains exnMsg "No images in sample" || strContains exnMsg "Only one image in sample" then
    (true, false)
  else
    (true, true)

/-! ## Interleaved-document assembler (`preprocess_interleaved`,
data.py lines 295-362)

The tokenizer and the CLIP image processor are external collaborators: the
tokenizer is a record with an `encode` function (text and max length to
`(input_ids, attention_mask)`, contracted to truncate to the max length),
and the image processor is modelled by tagging each surviving image
descriptor as a `real` tensor slot.  `random.random()` is passed in as the
`coin` argument. -/

def MIN_KB : Nat := 10
def MAX_NUM_IMAGES : Nat := 5

/-- One entry of the record's `image_info` list: the byte length of its
base64-decoded payload, its similarity score, and its sentence index. -/
structure ImageInfo where
  image_bytes : Nat
  matched_sim : ℚ
  matched_text_index : Nat
  deriving DecidableEq

/-- A parsed interleaved JSON record. -/
structure InterleavedDoc where
  text_list : List String
  image_info : List ImageInfo
  deriving DecidableEq

/-- The two `continue` guards of the image loop (data.py lines 305-308):
an image is kept unless `len(rawbytes) // 1000 <= MIN_KB` or
`matched_sim < sim_threshold`. -/
def passesImageFilters (sim_threshold : ℚ) (im : ImageInfo) : Bool :=
  if im.image_bytes / 1000 ≤ MIN_KB then false
  else if im.matched_sim < sim_threshold then false
  else true

/-- The images surviving the filters, in original order. -/
def interleavedKept (sim_threshold : ℚ) (doc : InterleavedDoc) : List ImageInfo :=
  doc.image_info.filter (passesImageFilters sim_threshold)

/-- One slot of the stacked image tensor: a preprocessed real image (tagged
with its source descriptor) or an all-zero padding tensor with its shape. -/
inductive ImgSlot
  | real (im : ImageInfo)
  | zeroPad (channels height width : Nat)
  deriving DecidableEq

/-- `preprocess_image` applied to the kept images, modelled as tagging. -/
def preprocess_image_model (imgs : List ImageInfo) : List ImgSlot :=
  imgs.map ImgSlot.real

/-- The image-tensor part of `preprocess_interleaved` (data.py lines
327-336): keep the first `min(len, MAX_NUM_IMAGES)` images, then zero-pad
with `(3, 224, 224)` tensors up to `MAX_NUM_IMAGES` if fewer. -/
def interleavedImageSlots (sim_threshold : ℚ) (doc : InterleavedDoc) : List ImgSlot :=
  let images_tensors := preprocess_image_model (interleavedKept sim_threshold doc)
  let keepCount := min images_tensors.length MAX_NUM_IMAGES
  let images_tensors := images_tensors.take keepCount
  if images_tensors.length < MAX_NUM_IMAGES then
    images_tensors ++ List.replicate (MAX_NUM_IMAGES - images_tensors.length) (ImgSlot.zeroPad 3 224 224)
  else images_tensors

/-- `sentences[ix] = f"<|endofchunk|><image>{sentences[ix]}"` for each kept
sentence index (data.py lines 340-341).  An out-of-range index is a no-op
here (in Python it would raise an `IndexError`, swallowed by the pipeline
handler). -/
def injectTags (sentences : List String) (ixs : List Nat) : List String :=
  ixs.foldl (fun ss ix => ss.set ix ("<|endofchunk|><image>" ++ ss.getD ix "")) sentences

/-- Python `str.replace(old, new, 1)`: replace only the first occurrence. -/
def replaceFirst (s pat new : String) : String :=
  match s.splitOn pat with
  | [] => s
  | [x] => x
  | x :: y :: rest => x ++ new ++ String.intercalate pat (y :: rest)

/-- The tokenizer collaborator: `encode text maxLength` returns
`(input_ids, attention_mask)` truncated/padded to `maxLength`, and
`image_token_id` is the id of the `<image>` special token. -/
structure TokenizerModel where
  eos_token : String
  image_token_id : Int
  encode : String → Nat → List Int × List Int

/-- The text assembled by `preprocess_interleaved` (data.py lines 338-347):
tag injection, space join, removal of the first `<|endofchunk|>`, whitespace
cleanup around the special tokens, final `<|endofchunk|>` + eos. -/
def interleavedText (tok : TokenizerModel) (sim_threshold : ℚ) (doc : InterleavedDoc) : String :=
  let kept := interleavedKept sim_threshold doc
  let sentence_ixs := (kept.map ImageInfo.matched_text_index).take
    (min (preprocess_image_model kept).length MAX_NUM_IMAGES)
  let sentences := injectTags doc.text_list sentence_ixs
  let text := String.intercalate " " sentences
  let text := replaceFirst text "<|endofchunk|>" ""
  let text := ((text.replace " <|endofchunk|>" "<|endofchunk|>").replace "<image> " "<image>").replace " <image>" "<image>"
  text ++ "<|endofchunk|>" ++ tok.eos_token

/-- `tokenizer(text, max_length=256, truncation=True, padding="max_length")`
(data.py line 349). -/
def interleavedEncoding (tok : TokenizerModel) (sim_threshold : ℚ) (doc : InterleavedDoc) :
    List Int × List Int :=
  tok.encode (interleavedText tok sim_threshold doc) 256

/-- `torch.count_nonzero(input_ids == <image-token-id>)` (data.py line 352). -/
def interleavedNumImages (tok : TokenizerModel) (sim_threshold : ℚ) (doc : InterleavedDoc) : Nat :=
  (interleavedEncoding tok sim_threshold doc).1.count tok.image_token_id

/-- The literal `0.5` of `random.random() <= 0.5` (data.py line 356), as a
normalised rational. -/
def ratHalf : ℚ := ⟨1, 2, by decide, by decide⟩

/-- Embedding of `preprocess_interleaved` (data.py lines 295-362); `coin` is
the `random.random()` draw of line 356. -/
def preprocess_interleaved (tok : TokenizerModel) (sim_threshold : ℚ) (coin : ℚ)
    (doc : InterleavedDoc) : Except String (List ImgSlot × (List Int × List Int)) :=
  if (interleavedKept sim_threshold doc).length = 0 then
    .error "No images in sample"
  else
    let images_tensors := interleavedImageSlots sim_threshold doc
    let text_tensor := interleavedEncoding tok sim_threshold doc
    let num_images := interleavedNumImages tok sim_threshold doc
    if num_images = 0 then
      .error "No images in sample"
    else if num_images = 1 ∧ coin ≤ ratHalf then
      .error "Only one image in sample"
    else
      .ok (images_tensors, text_tensor)

/-! ## Resilient regroup stage (`group_by_keys_nothrow`, data.py lines
125-150)

Records arriving from `tar_file_expander` are `(fname, url, data)` dicts;
payloads are identified by a `Nat`.  A sample is a Python dict holding the
`__key__` and `__url__` metadata entries plus the collected
`suffix ↦ value` entries (in insertion order); `suffix in current_sample`
therefore also matches the two metadata keys. -/

/-- One `{fname, data, __url__}` record from the tar expander. -/
structure FileRec where
  fname : String
  url : String
  data : Nat
  deriving DecidableEq

/-- A grouped sample dict: `__key__`, `__url__`, and the suffix entries. -/
structure WdsSample where
  key : String
  url : String
  items : List (String × Nat)
  deriving DecidableEq

/-- Python `suffix in current_sample`: the dict also contains the
`__key__` and `__url__` entries. -/
def sampleHasKey (s : WdsSample) (suffix : String) : Bool :=
  suffix == "__key__" || suffix == "__url__" || (s.items.map Prod.fst).contains suffix

/-- `webdataset.tariterators.valid_sample`: not `None`, a dict with at least
one entry and no `__bad__` flag.  A sample built by the regroup stage always
holds its two metadata entries, so every non-`None` sample is valid. -/
def valid_sample : Option WdsSample → Bool
  | none => false
  | some _ => true

/-- `webdataset.tariterators.base_plus_ext(fname)`: split the last path
component at its first dot (regex `^((?:.*/|)[^.]+)[.]([^/]*)$`); no dot in
the base name, or an empty stem, means no match. -/
def base_plus_ext (fname : String) : Option (String × String) :=
  let parts := splitOnCharList '/' fname.data
  let dirParts := parts.dropLast
  let baseName := parts.getLastD []
  match splitOnCharList '.' baseName with
  | [] => none
  | [_] => none
  | stem :: restDots =>
    if stem = [] then none
    else some (⟨intercalateChar '/' (dirParts ++ [stem])⟩, ⟨intercalateChar '.' restDots⟩)

/-- The loop body of `group_by_keys_nothrow` (data.py lines 131-150),
threading the `current_sample` accumulator.  A sample is flushed when the
stem changes or the suffix is already present; a flushed sample is yielded
only if `valid_sample` holds. -/
def gbkRun (keys : String → Option (String × String)) (lcase : Bool)
    (suffixes : Option (List String)) : List FileRec → Option WdsSample → List WdsSample
  | [], cur => if valid_sample cur then cur.toList else []
  | f :: rest, cur =>
    match keys f.fname with
    | none => gbkRun keys lcase suffixes rest cur
    | some ps =>
      let sfx := if lcase then strLower ps.2 else ps.2
      let flush : Bool :=
        match cur with
        | none => true
        | some s => (ps.1 != s.key) || sampleHasKey s sfx
      let out := if flush then (if valid_sample cur then cur.toList else []) else []
      let cur1 : Option WdsSample := if flush then some ⟨ps.1, f.url, []⟩ else cur
      let cur2 : Option WdsSample :=
        match cur1 with
        | some s =>
          if suffixes.isNone || (suffixes.getD []).contains sfx then
            some ⟨s.key, s.url, s.items ++ [(sfx, f.data)]⟩
          else some s
        | none => none
      out ++ gbkRun keys lcase suffixes rest cur2

/-- Embedding of `group_by_keys_nothrow(data)` with the defaults used at its
call site in `tarfile_to_samples_nothrow` (`keys=base_plus_ext`,
`lcase=True`, `suffixes=None`; the `handler` parameter is never used by the
function body). -/
def group_by_keys_nothrow (keys : String → Option (String × String))
    (data : List FileRec) : List WdsSample :=
  gbkRun keys true none data none

/-! Specification-side regrouping (from the spec's words, for claim C7):
one sample per contiguous run of equal stems, containing the run's
case-folded suffix entries in order. -/

def gbkMkItem (keysv : FileRec → String × String) (r : FileRec) : String × Nat :=
  (strLower (keysv r).2, r.data)

/-- Collect the current run into a sample, starting fresh on a stem
change. -/
def specRunsAux (keysv : FileRec → String × String) :
    List FileRec → String → String → List (String × Nat) → List WdsSample
  | [], p, u, acc => [⟨p, u, acc⟩]
  | f :: rest, p, u, acc =>
    if (keysv f).1 = p then
      specRunsAux keysv rest p u (acc ++ [gbkMkItem keysv f])
    else
      ⟨p, u, acc⟩ :: specRunsAux keysv rest (keysv f).1 f.url [gbkMkItem keysv f]

/-- `specGroup`: the spec's regrouping — exactly one sample per run of
records sharing a stem, holding all of the run's case-folded suffixes. -/
def specGroup (keysv : FileRec → String × String) : List FileRec → List WdsSample
  | [] => []
  | f :: rest => specRunsAux keysv rest (keysv f).1 f.url [gbkMkItem keysv f]

/-- Collapse consecutive duplicates; a list of stems describes contiguous
same-stem runs exactly when its collapsed form has no duplicates. -/
def collapseRuns : List String → List String
  | [] => []
  | [a] => [a]
  | a :: b :: rest => if a = b then collapseRuns (b :: rest) else a :: collapseRuns (b :: rest)

/-- Two records with the same stem carry distinct case-folded suffixes. -/
def distinctExtIfSameStem (keysv : FileRec → String × String) (r s : FileRec) : Prop :=
  (keysv r).1 = (keysv s).1 → strLower (keysv r).2 ≠ strLower (keysv s).2

/-! ## Instruction-tuning path (`get_mimicit_dataset`, data.py lines 646-803)

`MimicitDataset` is a black-box collaborator: a dataset is modelled by its
length and an identifier for its `collate` bound method.  The accumulation
of the configured dataset instances from the `*_path` options (lines
651-735) is taken as given: `unified_datasets` / `val_unified_datasets` are
inputs.  `statistics.median` and `max` on an empty list raise — modelled by
`Except`. -/

/-- A black-box `MimicitDataset`: its length and the identity of its
`collate` method. -/
structure MDataset where
  len : Nat
  collateId : Nat
  deriving DecidableEq

/-- `statistics.median`: sort ascending; odd-length lists take the middle
element, even-length lists average the two middle elements; the empty list
raises `StatisticsError`. -/
def pyMedian (l : List ℚ) : Except String ℚ :=
  let s := l.insertionSort (· ≤ ·)
  let n := l.length
  if n = 0 then .error "no median for empty data"
  else if n % 2 = 1 then .ok (s.getD (n / 2) 0)
  else .ok ((s.getD (n / 2 - 1) 0 + s.getD (n / 2) 0) / 2)

/-- Python `max` over a list of lengths; raises on the empty list. -/
def pyMaxNat : List Nat → Except String Nat
  | [] => .error "max() arg is an empty sequence"
  | x :: xs => .ok (xs.foldl max x)

/-- A `RandomSampler(dataset, replacement, num_samples)` value. -/
structure RandomSamplerSpec where
  datasetLen : Nat
  replacement : Bool
  num_samples : Int
  deriving DecidableEq

/-- A sampler possibly wrapped in `DistributedProxySampler`; the proxy
carries `(num_replicas, rank)`. -/
structure SamplerSpec where
  base : RandomSamplerSpec
  proxy : Option (Int × Int)
  deriving DecidableEq

/-- A constructed `torch.utils.data.DataLoader`. -/
structure MLoader where
  datasetLen : Nat
  sampler : SamplerSpec
  batch_size : Int
  num_workers : Int
  pin_memory : Bool
  drop_last : Bool
  collate : Nat
  deriving DecidableEq

/-- The `args` fields read by `get_mimicit_dataset` after the dataset
instances have been accumulated. -/
structure MimicitArgs where
  unified_datasets : List MDataset
  val_unified_datasets : List MDataset
  train_num_samples : ℚ
  val_num_samples : ℚ
  batch_size : Int
  world_size : Int
  workers : Int
  distributed_type : String
  rank : Int
  floorFlag : Bool
  deriving DecidableEq

/-- The sampler built for one dataset (data.py lines 764-769 and 782-787):
without replacement over the dataset's full length when it is the only
dataset of its list, with replacement drawing `num_samples` otherwise;
wrapped in the distributed proxy for DEEPSPEED / MULTI_GPU. -/
def mimicitSampler (a : MimicitArgs) (datasets : List MDataset) (d : MDataset)
    (num_samples : Int) : SamplerSpec :=
  let base : RandomSamplerSpec :=
    if datasets.length = 1 then ⟨d.len, false, (d.len : Int)⟩
    else ⟨d.len, true, num_samples⟩
  ⟨base,
   if a.distributed_type = "DEEPSPEED" ∨ a.distributed_type = "MULTI_GPU" then
     some (a.world_size, a.rank)
   else none⟩

/-- Embedding of `get_mimicit_dataset` from the median/assert block onwards
(data.py lines 737-803).  Returns `(dataloaders, val_dataloaders)`.  Note
that both validation-loader construction quirks of the source are kept: the
with-replacement validation sampler draws the *training* target count, and
the validation `collate_fn` is read off the stale `unified_dataset` loop
variable (the last training dataset). -/
def get_mimicit_dataset (a : MimicitArgs) : Except String (List MLoader × List MLoader) :=
  let tnsE := if a.train_num_samples = -1 then
      pyMedian (a.unified_datasets.map (fun d => (d.len : ℚ)))
    else .ok a.train_num_samples
  match tnsE with
  | .error e => .error e
  | .ok tns =>
    let vnsE := if a.val_num_samples = -1 then
        pyMedian (a.val_unified_datasets.map (fun d => (d.len : ℚ)))
      else .ok a.val_num_samples
    match vnsE with
    | .error e => .error e
    | .ok vns =>
      match pyMaxNat (a.unified_datasets.map MDataset.len) with
      | .error e => .error e
      | .ok tmax =>
        if tns ≤ (tmax : ℚ) then
          match pyMaxNat (a.val_unified_datasets.map MDataset.len) with
          | .error e => .error e
          | .ok vmax =>
            if vns ≤ (vmax : ℚ) then
              let round_fn := if a.floorFlag then qFloorDivInt else qCeilDivInt
              let global_batch_size := a.batch_size * a.world_size
              let num_batches := round_fn tns global_batch_size
              let num_val_batches := round_fn vns global_batch_size
              let num_samples := num_batches * global_batch_size
              let _val_num_samples := num_val_batches * global_batch_size
              let lastTrainCollate : Nat :=
                match a.unified_datasets.getLast? with
                | some d => d.collateId
                | none => 0
              let dataloaders := a.unified_datasets.map (fun d =>
                (⟨d.len, mimicitSampler a a.unified_datasets d num_samples,
                  a.batch_size, a.workers, true, true, d.collateId⟩ : MLoader))
              let val_dataloaders := a.val_unified_datasets.map (fun d =>
                (⟨d.len, mimicitSampler a a.val_unified_datasets d num_samples,
                  a.batch_size, a.workers, true, true, lastTrainCollate⟩ : MLoader))
              .ok (dataloaders, val_dataloaders)
            else .error "your train_num_samples is larger than dataset"
        else .error "your train_num_samples is larger than dataset"

/-! ## Concrete inputs used by the witnesses and counterexamples -/

/-- A configuration whose `sizes.json` sidecar exists (total 100 samples for
the one shard) but whose fallback `train_num_samples` option is unset. -/
def c1SidecarCfg : WdsConfig :=
  ⟨["shard-000.tar"], ⟨some [("shard-000.tar", 100)], none⟩, false, none, 42, 8, 2, 4, false⟩

/-- A tokenizer whose encoding always holds exactly one `<image>` token
(id 7). -/
def tokOne : TokenizerModel := ⟨"</s>", 7, fun _ _ => ([7], [1])⟩

/-- A document with one qualifying image. -/
def docOneImg : InterleavedDoc := ⟨["s0"], [⟨11000, 1, 0⟩]⟩

/-- A document whose single image fails the 10 KB size filter. -/
def docNoImg : InterleavedDoc := ⟨["s0"], [⟨500, 1, 0⟩]⟩

/-- A document with 7 qualifying images. -/
def doc7Imgs : InterleavedDoc :=
  ⟨["s0", "s1", "s2", "s3", "s4", "s5", "s6"],
   [⟨11000, 1, 0⟩, ⟨11001, 1, 1⟩, ⟨11002, 1, 2⟩, ⟨11003, 1, 3⟩,
    ⟨11004, 1, 4⟩, ⟨11005, 1, 5⟩, ⟨11006, 1, 6⟩]⟩

/-- A document with 2 qualifying images. -/
def doc2Imgs : InterleavedDoc := ⟨["s0", "s1"], [⟨11000, 1, 0⟩, ⟨11001, 1, 1⟩]⟩

/-- An image whose decoded payload is exactly 10 KB (10000 bytes), with
similarity equal to the threshold 0. -/
def tenKBImage : ImageInfo := ⟨10000, 0, 0⟩

/-- A stream in which the records of stem `a` are not contiguous (the claim
quantifies over all finite streams with per-stem-valid, non-repeating
extensions, which this stream satisfies). -/
def c7Stream : List FileRec := [⟨"a.jpg", "u", 1⟩, ⟨"b.txt", "u", 2⟩, ⟨"a.txt", "u", 3⟩]

def c7Keysv : FileRec → String × String := fun r => (base_plus_ext r.fname).getD ("", "")

instance (keysv : FileRec → String × String) (r s : FileRec) :
    Decidable (distinctExtIfSameStem keysv r s) := by
  unfold distinctExtIfSameStem
  infer_instance

/-- A contiguous version of the same stream. -/
def c7Contig : List FileRec := [⟨"a.jpg", "u", 1⟩, ⟨"a.txt", "u", 2⟩, ⟨"b.txt", "u", 3⟩]

/-- A configuration with one training dataset (collate id 1) and one
validation dataset (collate id 2), both of length 8, with explicit target
counts so every assertion passes. -/
def c9Args : MimicitArgs := ⟨[⟨8, 1⟩], [⟨8, 2⟩], 8, 8, 4, 2, 0, "DEEPSPEED", 0, false⟩

/-- A configuration with one training dataset and no validation datasets,
with `val_num_samples = -1`. -/
def c10Args : MimicitArgs := ⟨[⟨8, 1⟩], [], 8, -1, 4, 2, 0, "NO", 0, false⟩

/-! ## Sanity lemmas for the arithmetic model -/

/-- `pyFloorDiv` agrees with the mathematical floor of the division. -/
lemma pyFloorDiv_eq_floor (a b : Int) (hb : 0 < b) :
    pyFloorDiv a b = Int.floor ((a : ℚ) / (b : ℚ)) := by
  have hbq : ((b : ℚ)) = ((b.toNat : ℕ) : ℚ) := by
    exact_mod_cast (congrArg (fun z : Int => (z : ℚ)) (Int.toNat_of_nonneg hb.le).symm)
  rw [pyFloorDiv, Int.fdiv_eq_ediv _ hb.le, hbq, Rat.floor_intCast_div_natCast,
    Int.toNat_of_nonneg hb.le]

/-- `pyCeilDiv` agrees with the mathematical ceiling of the division. -/
lemma pyCeilDiv_eq_ceil (a b : Int) (hb : 0 < b) :
    pyCeilDiv a b = Int.ceil ((a : ℚ) / (b : ℚ)) := by
  have hbq : ((b : ℚ)) = ((b.toNat : ℕ) : ℚ) := by
    exact_mod_cast (congrArg (fun z : Int => (z : ℚ)) (Int.toNat_of_nonneg hb.le).symm)
  have h : ((a : ℚ) / (b : ℚ)) = -(((-a : Int) : ℚ) / (b : ℚ)) := by push_cast; ring
  rw [pyCeilDiv, h, Int.ceil_neg, Int.fdiv_eq_ediv _ hb.le]
  congr 1
  rw [hbq, Rat.floor_intCast_div_natCast, Int.toNat_of_nonneg hb.le]

/-- `ratHalf` is one half. -/
lemma ratHalf_eq_half : ratHalf = 1 / 2 := by
  rw [show ratHalf = Rat.divInt 1 2 from Rat.mk'_eq_divInt, Rat.divInt_eq_div]
  norm_num

/-- `get_dataset_size` always reports the expanded shard count. -/
lemma get_dataset_size_snd (fs : SidecarFS) (l : List String) :
    (get_dataset_size fs l).2 = l.length := by
  unfold get_dataset_size
  rcases fs with ⟨s, m⟩
  cases s <;> cases m <;> rfl

/-! ## Claim C1 -/

/-- Claim C1: the claim says the batch planner uses the `sizes.json` sum
(the fallback being consulted only when no sidecar exists), but every
constructor overwrites the sidecar-derived count with `None`
(`num_samples = None`, data.py lines 371/463/554), so the fallback is
always consulted: here `get_dataset_size` finds the sidecar count 100, yet
all three constructors fail with the `number of dataset samples must be
specified` RuntimeError because the fallback is unset. -/
theorem C1_sidecar_count_discarded :
    (get_dataset_size c1SidecarCfg.fs c1SidecarCfg.input_shards).1 = some 100
    ∧ get_mmc4_dataset c1SidecarCfg = .error (.runtimeError trainNumSamplesErrMsg)
    ∧ get_laion_dataset c1SidecarCfg = .error (.runtimeError trainNumSamplesErrMsg)
    ∧ get_cc3m_dataset c1SidecarCfg = .error (.runtimeError trainNumSamplesErrMsg) := by
  refine ⟨by decide, ?_, ?_, ?_⟩ <;> rfl

/-! ## Claim C2 -/

/-- Claim C2: for every positive sample count, world size, batch size and
worker count, the batch planner shared by the three webdataset constructors
computes `global_batch_size = batch_size * world_size`,
`num_batches = round_fn(num_samples / global_batch_size)`,
`num_worker_batches = round_fn(num_batches / max(1, workers))`, then the
final `num_batches = num_worker_batches * max(1, workers)` and final
`num_samples = num_batches * global_batch_size`, with the pipeline
truncated (`with_epoch`) to exactly `num_worker_batches` batches per
worker; `round_fn` is `math.ceil` by default and `math.floor` under the
floor flag. -/
theorem C2_batch_planner (c : WdsConfig) (stages : List Stage) (n : Int)
    (hns : c.train_num_samples = some n) (hn : 0 < n)
    (hbs : 0 < c.batch_size) (hws : 0 < c.world_size) (hw : 0 < c.workers)
    (hshards : c.dataset_resampled = false →
      c.workers * c.world_size ≤ (c.input_shards.length : Int)) :
    ∃ r, get_webdataset c stages = Except.ok r
      ∧ r.num_worker_batches =
          (if c.floorFlag then pyFloorDiv else pyCeilDiv)
            ((if c.floorFlag then pyFloorDiv else pyCeilDiv) n (c.batch_size * c.world_size))
            (max 1 c.workers)
      ∧ r.num_batches = r.num_worker_batches * max 1 c.workers
      ∧ r.num_samples = r.num_batches * (c.batch_size * c.world_size)
      ∧ r.with_epoch = r.num_worker_batches := by
  simp only [get_webdataset]
  rw [get_dataset_size_snd, hns]
  have e2 : pyTruthy (if pyTruthy (none : Option Int) then (none : Option Int) else some n)
      = true := by
    simp only [pyTruthy, Bool.false_eq_true, if_false, bne_iff_ne, ne_eq]
    omega
  rw [e2, if_neg (by simp : ¬(true = false))]
  have hassert : ¬(c.dataset_resampled = false ∧
      ((c.input_shards.length : Int) < c.workers * c.world_size)) := by
    rintro ⟨hres, hlt⟩
    exact absurd (hshards hres) (not_le.mpr hlt)
  rw [if_neg hassert]
  exact ⟨_, rfl, rfl, rfl, rfl, rfl⟩

/-- Claim C2 witness: the spec's concrete instance — `num_samples = 1000`,
`world_size = 4`, `batch_size = 8`, `workers = 2`, ceil rounding — yields
`global_batch_size = 32`, `num_worker_batches = 16`, final
`num_batches = 32`, final `num_samples = 1024`. -/
theorem C2_batch_planner_witness :
    (∃ r, get_webdataset
        ⟨["s0", "s1", "s2", "s3", "s4", "s5", "s6", "s7"], ⟨none, none⟩, false,
          some 1000, 42, 8, 2, 4, false⟩ []
        = Except.ok r
      ∧ r.num_worker_batches = pyCeilDiv (pyCeilDiv 1000 (8 * 4)) (max 1 2)
      ∧ r.num_batches = r.num_worker_batches * max 1 2
      ∧ r.num_samples = r.num_batches * (8 * 4)
      ∧ r.with_epoch = r.num_worker_batches)
    ∧ (get_webdataset
        ⟨["s0", "s1", "s2", "s3", "s4", "s5", "s6", "s7"], ⟨none, none⟩, false,
          some 1000, 42, 8, 2, 4, false⟩ []).toOption.map
        (fun r => (r.num_batches, r.num_samples, r.num_worker_batches, r.with_epoch))
      = some (32, 1024, 16, 16) := by
  constructor
  · exact C2_batch_planner _ [] 1000 rfl (by decide) (by decide) (by decide) (by decide)
      (fun _ => by decide)
  · rfl

/-! ## Claim C3 -/

/-- Claim C3: two `detshuffle2` instances configured with the same
non-negative base seed and observing the same shared epoch derive the same
RNG seed `base + epoch` and produce identical output orderings of the same
input sequence; with a negative configured seed the RNG seed is instead
`pytorch_worker_seed(epoch)`, derived from the worker's intrinsic seed and
the epoch. -/
theorem C3_detshuffle2_deterministic {α : Type} (bufsize initial : Nat)
    (base epoch : Int) (workerInfo : Option WorkerInfo) (wdsRankSeed : Int)
    (src : List α) (s1 s2 : Detshuffle2)
    (hbase : 0 ≤ base)
    (h1 : s1 = ⟨bufsize, initial, base, .sharedEpoch epoch⟩)
    (h2 : s2 = ⟨bufsize, initial, base, .sharedEpoch epoch⟩) :
    detshuffle2_run s1 workerInfo wdsRankSeed src = detshuffle2_run s2 workerInfo wdsRankSeed src
    ∧ detshuffle2_used_seed s1 workerInfo wdsRankSeed = base + epoch
    ∧ (∀ s3 : Detshuffle2, ∀ negSeed : Int, negSeed < 0 →
        s3 = ⟨bufsize, initial, negSeed, .sharedEpoch epoch⟩ →
        detshuffle2_used_seed s3 workerInfo wdsRankSeed =
          pytorch_worker_seed workerInfo wdsRankSeed epoch) := by
  subst h1; subst h2
  refine ⟨rfl, ?_, ?_⟩
  · simp only [detshuffle2_used_seed, epochValue]
    rw [if_neg (by omega)]
  · intro s3 negSeed hneg h3
    subst h3
    simp only [detshuffle2_used_seed, epochValue]
    rw [if_pos hneg]

/-- Claim C3 witness: with base seed 42 and epoch 3 the derived seed is 45
and the two runs coincide; with seed -1 the worker-derived seed is used
(here `100 + 3 * 4 = 112`). -/
theorem C3_detshuffle2_witness :
    detshuffle2_run ⟨4, 2, 42, .sharedEpoch 3⟩ (some ⟨100, 4⟩) 0 [1, 2, 3, 4, 5, 6]
      = detshuffle2_run ⟨4, 2, 42, .sharedEpoch 3⟩ (some ⟨100, 4⟩) 0 [1, 2, 3, 4, 5, 6]
    ∧ detshuffle2_used_seed ⟨4, 2, 42, .sharedEpoch 3⟩ (some ⟨100, 4⟩) 0 = 42 + 3
    ∧ detshuffle2_used_seed ⟨4, 2, -1, .sharedEpoch 3⟩ (some ⟨100, 4⟩) 0
        = pytorch_worker_seed (some ⟨100, 4⟩) 0 3 := by
  have h := C3_detshuffle2_deterministic 4 2 42 3 (some ⟨100, 4⟩) 0
    ([1, 2, 3, 4, 5, 6] : List Nat)
    ⟨4, 2, 42, .sharedEpoch 3⟩ ⟨4, 2, 42, .sharedEpoch 3⟩ (by decide) rfl rfl
  exact ⟨h.1, h.2.1, h.2.2 ⟨4, 2, -1, .sharedEpoch 3⟩ (-1) (by decide) rfl⟩

/-! ## Claim C8 -/

/-- The shard-count assertion / resampled-mode behaviour of the shared
constructor body, for any dataset-specific stage list free of the two
partitioning stages. -/
lemma webdataset_assert_iff (c : WdsConfig) (stages : List Stage) (n : Int)
    (hns : c.train_num_samples = some n) (hn : n ≠ 0)
    (hsplitN : Stage.splitByNode ∉ stages) (hsplitW : Stage.splitByWorker ∉ stages) :
    ((∃ msg, get_webdataset c stages = .error (.assertionError msg)) ↔
      (c.dataset_resampled = false ∧ (c.input_shards.length : Int) < c.workers * c.world_size))
    ∧ (c.dataset_resampled = true →
        ∃ r, get_webdataset c stages = .ok r
          ∧ Stage.splitByNode ∉ r.pipeline ∧ Stage.splitByWorker ∉ r.pipeline) := by
  simp only [get_webdataset]
  rw [get_dataset_size_snd, hns]
  have e2 : pyTruthy (if pyTruthy (none : Option Int) then (none : Option Int) else some n)
      = true := by
    simp only [pyTruthy, Bool.false_eq_true, if_false, bne_iff_ne, ne_eq]
    omega
  rw [e2, if_neg (by simp : ¬(true = false))]
  by_cases hc : c.dataset_resampled = false ∧
      ((c.input_shards.length : Int) < c.workers * c.world_size)
  · rw [if_pos hc]
    refine ⟨⟨fun _ => hc, fun _ => ⟨_, rfl⟩⟩, fun hres => ?_⟩
    rw [hres] at hc
    exact absurd hc.1 (by simp)
  · rw [if_neg hc]
    refine ⟨⟨fun ⟨msg, hmsg⟩ => by simp at hmsg, fun h => absurd h hc⟩, fun hres => ?_⟩
    refine ⟨_, rfl, ?_, ?_⟩ <;>
      simp [hres, hsplitN, hsplitW]

/-- Claim C8: each of the three webdataset constructors fails with the
shard-count assertion exactly when resampled mode is off and the expanded
shard count is strictly below `workers * world_size`; with resampled mode
on, no shard-count precondition is checked (construction succeeds) and the
`split_by_node` / `split_by_worker` partitioning stages are absent from the
pipeline. -/
theorem C8_shard_count_assertion (c : WdsConfig) (n : Int)
    (hns : c.train_num_samples = some n) (hn : n ≠ 0) :
    (((∃ msg, get_mmc4_dataset c = .error (.assertionError msg)) ↔
        (c.dataset_resampled = false ∧
          (c.input_shards.length : Int) < c.workers * c.world_size))
      ∧ (c.dataset_resampled = true →
          ∃ r, get_mmc4_dataset c = .ok r
            ∧ Stage.splitByNode ∉ r.pipeline ∧ Stage.splitByWorker ∉ r.pipeline))
    ∧ (((∃ msg, get_laion_dataset c = .error (.assertionError msg)) ↔
        (c.dataset_resampled = false ∧
          (c.input_shards.length : Int) < c.workers * c.world_size))
      ∧ (c.dataset_resampled = true →
          ∃ r, get_laion_dataset c = .ok r
            ∧ Stage.splitByNode ∉ r.pipeline ∧ Stage.splitByWorker ∉ r.pipeline))
    ∧ (((∃ msg, get_cc3m_dataset c = .error (.assertionError msg)) ↔
        (c.dataset_resampled = false ∧
          (c.input_shards.length : Int) < c.workers * c.world_size))
      ∧ (c.dataset_resampled = true →
          ∃ r, get_cc3m_dataset c = .ok r
            ∧ Stage.splitByNode ∉ r.pipeline ∧ Stage.splitByWorker ∉ r.pipeline)) := by
  refine ⟨?_, ?_, ?_⟩ <;>
    exact webdataset_assert_iff c _ n hns hn (by simp) (by simp)

/-- Claim C8 witness: with 1 shard, 2 workers and world size 4 the
non-resampled constructor hits the assertion, while the resampled
constructor succeeds with no partitioning stages. -/
theorem C8_shard_count_assertion_witness :
    (∃ msg, get_mmc4_dataset ⟨["s0"], ⟨none, none⟩, false, some 1000, 42, 8, 2, 4, false⟩
        = .error (.assertionError msg))
    ∧ (∃ r, get_mmc4_dataset ⟨["s0"], ⟨none, none⟩, true, some 1000, 42, 8, 2, 4, false⟩
        = .ok r ∧ Stage.splitByNode ∉ r.pipeline ∧ Stage.splitByWorker ∉ r.pipeline) := by
  constructor
  · exact (C8_shard_count_assertion _ 1000 rfl (by decide)).1.1.mpr ⟨rfl, by decide⟩
  · exact (C8_shard_count_assertion _ 1000 rfl (by decide)).1.2 rfl

/-! ## Claim C4 -/

/-- Claim C4: `preprocess_interleaved` raises exactly when no image passes
the filters, or zero `<image>` tokens survive the max-length-256
tokenization, or exactly one survives and the uniform coin is ≤ 0.5 — with
the messages `No images in sample` / `Only one image in sample`
respectively; and `log_and_continue` returns True (continue) for every
exception while logging nothing for those two messages. -/
theorem C4_rejection_policy (tok : TokenizerModel) (st coin : ℚ) (doc : InterleavedDoc) :
    ((∃ e, preprocess_interleaved tok st coin doc = .error e) ↔
      (interleavedKept st doc = [] ∨ interleavedNumImages tok st doc = 0 ∨
        (interleavedNumImages tok st doc = 1 ∧ coin ≤ 1 / 2)))
    ∧ (interleavedKept st doc = [] →
        preprocess_interleaved tok st coin doc = .error "No images in sample")
    ∧ (interleavedKept st doc ≠ [] → interleavedNumImages tok st doc = 0 →
        preprocess_interleaved tok st coin doc = .error "No images in sample")
    ∧ (interleavedKept st doc ≠ [] → interleavedNumImages tok st doc = 1 → coin ≤ 1 / 2 →
        preprocess_interleaved tok st coin doc = .error "Only one image in sample")
    ∧ (∀ msg, (log_and_continue msg).1 = true)
    ∧ (∀ msg,
        (strContains msg "No images in sample" || strContains msg "Only one image in sample")
          = true → (log_and_continue msg).2 = false) := by
  rw [← ratHalf_eq_half]
  simp only [preprocess_interleaved]
  refine ⟨⟨?_, ?_⟩, ?_, ?_, ?_, ?_, ?_⟩
  · rintro ⟨e, he⟩
    by_contra hcon
    have hk : ¬(interleavedKept st doc = []) := fun h => hcon (Or.inl h)
    have hn0 : ¬(interleavedNumImages tok st doc = 0) := fun h => hcon (Or.inr (Or.inl h))
    have hn1 : ¬(interleavedNumImages tok st doc = 1 ∧ coin ≤ ratHalf) :=
      fun h => hcon (Or.inr (Or.inr h))
    rw [if_neg (fun h => hk (List.length_eq_zero.mp h)), if_neg hn0, if_neg hn1] at he
    simp at he
  · intro h
    by_cases h0 : (interleavedKept st doc).length = 0
    · rw [if_pos h0]
      exact ⟨_, rfl⟩
    · rw [if_neg h0]
      rcases h with hk | hn0 | hn1
      · exact absurd (show (interleavedKept st doc).length = 0 by simp [hk]) h0
      · rw [if_pos hn0]
        exact ⟨_, rfl⟩
      · rw [if_neg (by omega : ¬interleavedNumImages tok st doc = 0), if_pos hn1]
        exact ⟨_, rfl⟩
  · intro hk
    rw [if_pos (show (interleavedKept st doc).length = 0 by simp [hk])]
  · intro hk hn0
    rw [if_neg (fun h => hk (List.length_eq_zero.mp h)), if_pos hn0]
  · intro hk hn1 hc
    rw [if_neg (fun h => hk (List.length_eq_zero.mp h)),
      if_neg (by omega : ¬interleavedNumImages tok st doc = 0), if_pos ⟨hn1, hc⟩]
  · intro msg
    simp only [log_and_continue]
    split_ifs <;> rfl
  · intro msg h
    simp only [log_and_continue]
    rw [if_pos h]

/-- Claim C4 witness: a single-image document is rejected with `Only one
image in sample` when the coin is ≤ 0.5, an all-filtered document is
rejected with `No images in sample`, and `log_and_continue` continues
without logging on such a message. -/
theorem C4_rejection_policy_witness :
    preprocess_interleaved tokOne 0 0 docOneImg = .error "Only one image in sample"
    ∧ preprocess_interleaved tokOne 0 0 docNoImg = .error "No images in sample"
    ∧ (log_and_continue "ValueError: No images in sample").1 = true
    ∧ (log_and_continue "ValueError: No images in sample").2 = false := by
  refine ⟨(C4_rejection_policy tokOne 0 0 docOneImg).2.2.2.1 (by decide) (by decide)
      (by rw [← ratHalf_eq_half]; decide),
    (C4_rejection_policy tokOne 0 0 docNoImg).2.1 (by decide),
    (C4_rejection_policy tokOne 0 0 docNoImg).2.2.2.2.1 _,
    (C4_rejection_policy tokOne 0 0 docNoImg).2.2.2.2.2 _ (by decide)⟩

/-! ## Claim C5 -/

/-- Claim C5: the image tensor built by `preprocess_interleaved` has
exactly `MAX_NUM_IMAGES = 5` slots: with `n ≥ 5` qualifying images it keeps
exactly the first 5 in order with no padding, and with `n < 5` it keeps all
`n` and appends exactly `5 - n` all-zero `(3, 224, 224)` slots; any
returned sample carries exactly this tensor. -/
theorem C5_image_cap_and_pad (st : ℚ) (doc : InterleavedDoc) :
    (MAX_NUM_IMAGES ≤ (interleavedKept st doc).length →
      interleavedImageSlots st doc
        = ((interleavedKept st doc).take MAX_NUM_IMAGES).map ImgSlot.real)
    ∧ ((interleavedKept st doc).length < MAX_NUM_IMAGES →
      interleavedImageSlots st doc
        = (interleavedKept st doc).map ImgSlot.real
          ++ List.replicate (MAX_NUM_IMAGES - (interleavedKept st doc).length)
              (ImgSlot.zeroPad 3 224 224))
    ∧ (interleavedImageSlots st doc).length = MAX_NUM_IMAGES
    ∧ (∀ tok coin out, preprocess_interleaved tok st coin doc = .ok out →
        out.1 = interleavedImageSlots st doc) := by
  refine ⟨?_, ?_, ?_, ?_⟩
  · intro h5
    simp only [interleavedImageSlots, preprocess_image_model]
    have hmin : min ((interleavedKept st doc).map ImgSlot.real).length MAX_NUM_IMAGES
        = MAX_NUM_IMAGES := by
      simp only [List.length_map]
      omega
    rw [hmin]
    rw [if_neg (by simp only [List.length_take, List.length_map]; omega)]
    rw [← List.map_take]
  · intro h5
    simp only [interleavedImageSlots, preprocess_image_model]
    have hmin : min ((interleavedKept st doc).map ImgSlot.real).length MAX_NUM_IMAGES
        = (interleavedKept st doc).length := by
      simp only [List.length_map]
      omega
    rw [hmin, List.take_of_length_le (by simp only [List.length_map]; omega)]
    rw [if_pos (by simp only [List.length_map]; omega)]
    simp only [List.length_map]
  · simp only [interleavedImageSlots, preprocess_image_model]
    split_ifs with h <;>
      simp only [List.length_append, List.length_replicate, List.length_take,
        List.length_map] at h ⊢ <;>
      omega
  · intro tok coin out hok
    simp only [preprocess_interleaved] at hok
    split_ifs at hok
    injection hok with h
    rw [← h]

/-- Claim C5 witness: 7 qualifying images yield the first 5 retained with
no padding; 2 qualifying images yield exactly 3 all-zero slots. -/
theorem C5_image_cap_and_pad_witness :
    interleavedImageSlots 0 doc7Imgs
      = ((interleavedKept 0 doc7Imgs).take MAX_NUM_IMAGES).map ImgSlot.real
    ∧ (interleavedKept 0 doc7Imgs).length = 7
    ∧ interleavedImageSlots 0 doc7Imgs
        = [ImgSlot.real ⟨11000, 1, 0⟩, ImgSlot.real ⟨11001, 1, 1⟩, ImgSlot.real ⟨11002, 1, 2⟩,
           ImgSlot.real ⟨11003, 1, 3⟩, ImgSlot.real ⟨11004, 1, 4⟩]
    ∧ interleavedImageSlots 0 doc2Imgs
        = [ImgSlot.real ⟨11000, 1, 0⟩, ImgSlot.real ⟨11001, 1, 1⟩,
           ImgSlot.zeroPad 3 224 224, ImgSlot.zeroPad 3 224 224, ImgSlot.zeroPad 3 224 224] :=
  ⟨(C5_image_cap_and_pad 0 doc7Imgs).1 (by decide), by decide, by decide, by decide⟩

/-! ## Claim C6 -/

/-- Claim C6 counterexample: the claim — an image passes iff its payload is
at least 10 KB and its similarity is at least the threshold — is false at a
10000-byte image with similarity 0 against threshold 0: both conditions
hold, yet the filter rejects it (`10000 // 1000 = 10 <= MIN_KB`). -/
theorem C6_counterexample :
    ¬ (passesImageFilters 0 tenKBImage = true ↔
        (10 * 1000 ≤ tenKBImage.image_bytes ∧ (0 : ℚ) ≤ tenKBImage.matched_sim)) := by
  decide

/-- Claim C6 (amended): an image passes the pre-decode filter iff
`image_bytes // 1000 > 10` — that is, its payload is at least 11000
bytes — and its similarity is ≥ the threshold. -/
theorem C6_filter_iff (t : ℚ) (im : ImageInfo) :
    passesImageFilters t im = true ↔ (11 * 1000 ≤ im.image_bytes ∧ t ≤ im.matched_sim) := by
  unfold passesImageFilters MIN_KB
  split_ifs with h1 h2
  · constructor
    · intro h
      exact absurd h (by simp)
    · rintro ⟨hb, _⟩
      exfalso
      have : 11 ≤ im.image_bytes / 1000 := (Nat.le_div_iff_mul_le (by norm_num)).mpr hb
      omega
  · constructor
    · intro h
      exact absurd h (by simp)
    · rintro ⟨_, ht⟩
      exact absurd h2 (not_lt.mpr ht)
  · constructor
    · intro _
      refine ⟨?_, not_lt.mp h2⟩
      have h1' : 11 ≤ im.image_bytes / 1000 := by omega
      exact (Nat.le_div_iff_mul_le (by norm_num)).mp h1'
    · intro _
      rfl

/-- Claim C6 witness: an 11000-byte image at similarity equal to the
threshold passes the filter. -/
theorem C6_filter_iff_witness : passesImageFilters 0 ⟨11000, 0, 0⟩ = true :=
  (C6_filter_iff 0 ⟨11000, 0, 0⟩).mpr (by decide)

/-! ## Claim C7 -/

/-- `gbkRun` on the empty stream flushes the pending sample. -/
lemma gbkRun_nil_some (keys : String → Option (String × String)) (lcase : Bool)
    (suffixes : Option (List String)) (p u : String) (items : List (String × Nat)) :
    gbkRun keys lcase suffixes [] (some ⟨p, u, items⟩) = [⟨p, u, items⟩] := by
  simp [gbkRun, valid_sample]

/-- A record continuing the current stem with a fresh suffix extends the
pending sample without flushing. -/
lemma gbkRun_cons_same (keys : String → Option (String × String)) (f : FileRec)
    (rest : List FileRec) (p u : String) (items : List (String × Nat)) (ext0 : String)
    (hkf : keys f.fname = some (p, ext0))
    (hhk : sampleHasKey ⟨p, u, items⟩ (strLower ext0) = false) :
    gbkRun keys true none (f :: rest) (some ⟨p, u, items⟩)
      = gbkRun keys true none rest (some ⟨p, u, items ++ [(strLower ext0, f.data)]⟩) := by
  simp [gbkRun, hkf, hhk]

/-- A record with a different stem (or a colliding suffix) flushes the
pending sample and starts a fresh one. -/
lemma gbkRun_cons_flush (keys : String → Option (String × String)) (f : FileRec)
    (rest : List FileRec) (p u : String) (items : List (String × Nat)) (pfx0 ext0 : String)
    (hkf : keys f.fname = some (pfx0, ext0))
    (hfl : ((pfx0 != p) || sampleHasKey ⟨p, u, items⟩ (strLower ext0)) = true) :
    gbkRun keys true none (f :: rest) (some ⟨p, u, items⟩)
      = ⟨p, u, items⟩ :: gbkRun keys true none rest
          (some ⟨pfx0, f.url, [(strLower ext0, f.data)]⟩) := by
  simp [gbkRun, hkf, hfl, valid_sample]

/-- Invariant run of the regroup loop: with a pending sample holding the
suffix entries of the already-seen records of the current stem `p`, and a
remaining stream whose records all parse, pairwise carry distinct
case-folded suffixes within a stem, and avoid the two reserved metadata
keys, the loop produces exactly the run-grouping `specRunsAux`. -/
lemma gbkRun_eq_specRunsAux (keys : String → Option (String × String))
    (keysv : FileRec → String × String) :
    ∀ (data seen : List FileRec) (p u : String),
    (∀ r ∈ data, keys r.fname = some (keysv r)) →
    List.Pairwise (distinctExtIfSameStem keysv) (seen ++ data) →
    (∀ r ∈ seen ++ data, strLower (keysv r).2 ≠ "__key__" ∧ strLower (keysv r).2 ≠ "__url__") →
    (∀ r ∈ seen, (keysv r).1 = p) →
    gbkRun keys true none data (some ⟨p, u, seen.map (gbkMkItem keysv)⟩)
      = specRunsAux keysv data p u (seen.map (gbkMkItem keysv)) := by
  intro data
  induction data with
  | nil =>
    intro seen p u _ _ _ _
    rw [gbkRun_nil_some]
    rfl
  | cons f rest ih =>
    intro seen p u hkeys hpw hres hseen
    have hkf : keys f.fname = some (keysv f) := hkeys f (List.mem_cons_self f rest)
    have hkf2 : keys f.fname = some ((keysv f).1, (keysv f).2) := by
      rw [Prod.mk.eta]
      exact hkf
    have hresf := hres f (by simp)
    by_cases hp : (keysv f).1 = p
    · have hcross : ∀ s0 ∈ seen, ¬ strLower (keysv s0).2 = strLower (keysv f).2 := by
        intro s0 hs0
        have hrel := (List.pairwise_append.mp hpw).2.2 s0 hs0 f (by simp)
        exact hrel (by rw [hseen s0 hs0, hp])
      have hnm : sampleHasKey ⟨p, u, seen.map (gbkMkItem keysv)⟩ (strLower (keysv f).2)
          = false := by
        simp [sampleHasKey, hresf.1, hresf.2]
        intro x hx
        simpa [gbkMkItem] using hcross x hx
      have hkf3 : keys f.fname = some (p, (keysv f).2) := by
        rw [← hp]
        exact hkf2
      rw [gbkRun_cons_same keys f rest p u (seen.map (gbkMkItem keysv)) (keysv f).2 hkf3 hnm]
      have hacc : seen.map (gbkMkItem keysv) ++ [(strLower (keysv f).2, f.data)]
          = (seen ++ [f]).map (gbkMkItem keysv) := by
        simp [gbkMkItem]
      rw [hacc, ih (seen ++ [f]) p u (fun r hr => hkeys r (by simp [hr]))
        (by rw [List.append_assoc]; exact hpw)
        (by
          intro r hr
          apply hres
          rw [List.append_assoc] at hr
          exact hr)
        (by
          intro r hr
          rcases List.mem_append.mp hr with h | h
          · exact hseen r h
          · simp at h
            subst h
            exact hp)]
      rw [show specRunsAux keysv (f :: rest) p u (seen.map (gbkMkItem keysv))
          = specRunsAux keysv rest p u (seen.map (gbkMkItem keysv) ++ [gbkMkItem keysv f]) from by
        simp [specRunsAux, hp]]
      rw [show seen.map (gbkMkItem keysv) ++ [gbkMkItem keysv f]
          = (seen ++ [f]).map (gbkMkItem keysv) from by simp]
    · have hfl : (((keysv f).1 != p)
          || sampleHasKey ⟨p, u, seen.map (gbkMkItem keysv)⟩ (strLower (keysv f).2)) = true := by
        simp [bne_iff_ne, hp]
      rw [gbkRun_cons_flush keys f rest p u (seen.map (gbkMkItem keysv)) (keysv f).1 (keysv f).2
        hkf2 hfl]
      rw [show [(strLower (keysv f).2, f.data)] = ([f]).map (gbkMkItem keysv) from by
        simp [gbkMkItem]]
      rw [ih [f] (keysv f).1 f.url (fun r hr => hkeys r (by simp [hr]))
        (List.Pairwise.sublist (List.sublist_append_right seen (f :: rest)) hpw)
        (by
          intro r hr
          apply hres
          exact List.mem_append_right seen hr)
        (by
          intro r hr
          simp at hr
          subst hr
          rfl)]
      rw [show specRunsAux keysv (f :: rest) p u (seen.map (gbkMkItem keysv))
          = ⟨p, u, seen.map (gbkMkItem keysv)⟩
              :: specRunsAux keysv rest (keysv f).1 f.url [gbkMkItem keysv f] from by
        simp [specRunsAux, hp]]
      rw [show ([f]).map (gbkMkItem keysv) = [gbkMkItem keysv f] from by simp]

/-- The keys of the run-grouping are the collapsed stem runs. -/
lemma specRunsAux_map_key (keysv : FileRec → String × String) :
    ∀ (data : List FileRec) (p u : String) (acc : List (String × Nat)),
    (specRunsAux keysv data p u acc).map WdsSample.key
      = collapseRuns (p :: data.map (fun r => (keysv r).1)) := by
  intro data
  induction data with
  | nil =>
    intro p u acc
    rfl
  | cons f rest ih =>
    intro p u acc
    by_cases hp : (keysv f).1 = p
    · simp only [specRunsAux, if_pos hp, List.map_cons]
      rw [ih]
      rw [show collapseRuns (p :: (keysv f).1 :: rest.map (fun r => (keysv r).1))
          = collapseRuns ((keysv f).1 :: rest.map (fun r => (keysv r).1)) from by
        simp [collapseRuns, hp.symm]]
      rw [hp]
    · simp only [specRunsAux, if_neg hp, List.map_cons]
      rw [ih]
      rw [show collapseRuns (p :: (keysv f).1 :: rest.map (fun r => (keysv r).1))
          = p :: collapseRuns ((keysv f).1 :: rest.map (fun r => (keysv r).1)) from by
        simp [collapseRuns]
        intro heq
        exact absurd heq.symm hp]

/-- Claim C7 (amended): for a finite stream whose records all split under
the keys function, whose records sharing a stem are contiguous and carry
pairwise distinct case-folded extensions, and whose extensions avoid the
reserved `__key__` / `__url__` metadata keys, the regroup stage
reconstructs exactly one sample per distinct stem — the run-grouping
`specRunsAux` built from the spec's words — containing all of that stem's
case-folded extension entries in order, and the produced sample keys are
pairwise distinct. -/
theorem C7_regroup_roundtrip (keys : String → Option (String × String))
    (keysv : FileRec → String × String) (data : List FileRec)
    (hkeys : ∀ r ∈ data, keys r.fname = some (keysv r))
    (hnodup : List.Pairwise (distinctExtIfSameStem keysv) data)
    (hres : ∀ r ∈ data, strLower (keysv r).2 ≠ "__key__" ∧ strLower (keysv r).2 ≠ "__url__")
    (hcontig : (collapseRuns (data.map (fun r => (keysv r).1))).Nodup) :
    group_by_keys_nothrow keys data = specGroup keysv data
    ∧ ((group_by_keys_nothrow keys data).map WdsSample.key).Nodup := by
  have hmain : group_by_keys_nothrow keys data = specGroup keysv data := by
    cases data with
    | nil => rfl
    | cons f rest =>
      have hkf : keys f.fname = some (keysv f) := hkeys f (by simp)
      have hkf2 : keys f.fname = some ((keysv f).1, (keysv f).2) := by
        rw [Prod.mk.eta]
        exact hkf
      have step : group_by_keys_nothrow keys (f :: rest)
          = gbkRun keys true none rest
              (some ⟨(keysv f).1, f.url, [(strLower (keysv f).2, f.data)]⟩) := by
        simp [group_by_keys_nothrow, gbkRun, hkf2, valid_sample]
      rw [step]
      rw [show [(strLower (keysv f).2, f.data)] = ([f]).map (gbkMkItem keysv) from by
        simp [gbkMkItem]]
      rw [gbkRun_eq_specRunsAux keys keysv rest [f] (keysv f).1 f.url
        (fun r hr => hkeys r (by simp [hr])) hnodup (fun r hr => hres r hr)
        (by
          intro r hr
          simp at hr
          subst hr
          rfl)]
      simp [specGroup, gbkMkItem]
  refine ⟨hmain, ?_⟩
  rw [hmain]
  cases data with
  | nil => simp [specGroup]
  | cons f rest =>
    rw [show specGroup keysv (f :: rest)
        = specRunsAux keysv rest (keysv f).1 f.url [gbkMkItem keysv f] from rfl]
    rw [specRunsAux_map_key]
    simpa using hcontig

/-- Claim C7 counterexample: on the stream `a.jpg, b.txt, a.txt` — no
extension repeats for any stem, every group is a valid sample — the regroup
stage yields three samples with keys `a, b, a`: not exactly one sample per
distinct prefix, and neither `a` sample contains both of `a`'s
extensions. -/
theorem C7_counterexample :
    (group_by_keys_nothrow base_plus_ext c7Stream).map WdsSample.key = ["a", "b", "a"]
    ∧ ¬ ((group_by_keys_nothrow base_plus_ext c7Stream).map WdsSample.key).Nodup
    ∧ (group_by_keys_nothrow base_plus_ext c7Stream).length = 3
    ∧ (∀ s ∈ group_by_keys_nothrow base_plus_ext c7Stream, s.items.length = 1)
    ∧ List.Pairwise (distinctExtIfSameStem c7Keysv) c7Stream := by
  refine ⟨by decide, by decide, by decide, by decide, by decide⟩

/-- Claim C7 witness: on the contiguous stream `a.jpg, a.txt, b.txt` the
regroup stage agrees with the spec-side run-grouping — one sample per
distinct stem holding all of its extensions — and the sample keys are
distinct. -/
theorem C7_regroup_roundtrip_witness :
    group_by_keys_nothrow base_plus_ext c7Contig = specGroup c7Keysv c7Contig
    ∧ group_by_keys_nothrow base_plus_ext c7Contig
        = [⟨"a", "u", [("jpg", 1), ("txt", 2)]⟩, ⟨"b", "u", [("txt", 3)]⟩]
    ∧ ((group_by_keys_nothrow base_plus_ext c7Contig).map WdsSample.key).Nodup := by
  have h := C7_regroup_roundtrip base_plus_ext c7Keysv c7Contig
    (by decide) (by decide) (by decide) (by decide)
  exact ⟨h.1, by decide, h.2⟩

/-! ## Claim C9 -/

/-- Claim C9: the claim says every loader uses its own dataset's collate
function, but the validation loop reads `collate_fn` off the stale
`unified_dataset` loop variable (data.py line 795), so the validation
loader is built with the last *training* dataset's collate: here the
validation dataset's collate id is 2, yet the constructed validation
loader carries collate id 1. -/
theorem C9_stale_val_collate :
    (get_mimicit_dataset c9Args).toOption.map (fun p => p.2.map MLoader.collate) = some [1]
    ∧ (get_mimicit_dataset c9Args).toOption.map (fun p => p.1.map MLoader.collate) = some [1]
    ∧ c9Args.val_unified_datasets.map MDataset.collateId = [2] := by
  refine ⟨?_, ?_, ?_⟩ <;> decide

/-! ## Claim C10 -/

/-- Claim C10: with at least one training dataset configured and no
validation datasets, `get_mimicit_dataset` always raises before any data
loader is constructed — the median over the empty validation list fails
when `val_num_samples` is -1, and otherwise the `max` over the empty list
in the validation-size assertion fails. -/
theorem C10_requires_val_datasets (a : MimicitArgs)
    (ht : a.unified_datasets ≠ []) (hv : a.val_unified_datasets = []) :
    ∃ e, get_mimicit_dataset a = .error e := by
  obtain ⟨d, ds, hds⟩ : ∃ d ds, a.unified_datasets = d :: ds := by
    cases h : a.unified_datasets with
    | nil => exact absurd h ht
    | cons d ds => exact ⟨d, ds, rfl⟩
  simp only [get_mimicit_dataset, hv, List.map_nil]
  cases htns : (if a.train_num_samples = -1 then
      pyMedian (a.unified_datasets.map fun dd => (dd.len : ℚ))
    else Except.ok a.train_num_samples) with
  | error e =>
    simp only [htns]
    exact ⟨e, rfl⟩
  | ok tns =>
    simp only [htns]
    by_cases hvn : a.val_num_samples = -1
    · simp only [if_pos hvn]
      exact ⟨_, rfl⟩
    · simp only [if_neg hvn]
      rw [hds]
      simp only [List.map_cons, pyMaxNat]
      split_ifs with hle
      · exact ⟨_, rfl⟩
      · exact ⟨_, rfl⟩

/-- Claim C10 witness: the concrete no-validation configuration raises (the
empty-median error). -/
theorem C10_requires_val_datasets_witness :
    (∃ e, get_mimicit_dataset c10Args = .error e)
    ∧ get_mimicit_dataset c10Args = .error "no median for empty data" := by
  refine ⟨C10_requires_val_datasets c10Args (by decide) rfl, by rfl⟩

end OtterData
